import Mathlib

set_option autoImplicit false

/-!
Verification of the `finaladobething` repository: a shallow embedding of
the two document-analysis pipelines (`Challenge_1a/process_pdfs.py` and
`Challenge_1b/src/{pdf_parser,semantic_searcher,main}.py`) together with
theorems settling the frozen specification claims.

Python floats are modelled as exact rationals (`ℚ`); Python strings as
Lean `String` (all inputs of interest are ASCII, where the list-based
helpers below agree with Python's `str.lower`, `str.strip`, `str.split`,
`str.isupper` and `str.isdigit`).  Python's stable `sorted` is modelled
by `List.insertionSort` with a non-strict key comparison, which is also
stable.  In-place dictionary mutation is modelled by explicit state
passing: a function that mutates a list of records is embedded as a
function returning the new state of that list.
-/

/-! ## Generic string helpers shared by both pipelines -/

/-- Python's `str.lower` (ASCII). -/
def lowerString (s : String) : String := ⟨s.data.map Char.toLower⟩

/-- Drop leading and trailing whitespace from a character list. -/
def trimList (l : List Char) : List Char :=
  ((l.dropWhile Char.isWhitespace).reverse.dropWhile Char.isWhitespace).reverse

/-- Python's `str.strip()`. -/
def trimString (s : String) : String := ⟨trimList s.data⟩

/-- Does the character list `needle` occur at the head of `hay`? -/
def startsWithList : List Char → List Char → Bool
  | [], _ => true
  | _ :: _, [] => false
  | c :: cs, d :: ds => c == d && startsWithList cs ds

/-- Does `needle` occur as a contiguous sublist of `hay`?  This models the
Python substring test `needle in hay`. -/
def containsSubList (needle : List Char) : List Char → Bool
  | [] => needle.isEmpty
  | c :: t => startsWithList needle (c :: t) || containsSubList needle t

/-- Python's `needle in hay` on strings. -/
def containsSubstr (needle hay : String) : Bool :=
  containsSubList needle.data hay.data

/-- Word characters in the sense of the regex class `\w` (`[A-Za-z0-9_]`). -/
def isWordChar (c : Char) : Bool := c.isAlphanum || c == '_'

/-- Does `kw` occur in `hay` starting at index `i`, delimited by word
boundaries (regex `\b`) on both sides? -/
def wordOccursAt (kw hay : List Char) (i : ℕ) : Bool :=
  startsWithList kw (hay.drop i) &&
  (i == 0 || !isWordChar (hay.getD (i - 1) ' ')) &&
  (decide (hay.length ≤ i + kw.length) || !isWordChar (hay.getD (i + kw.length) ' '))

/-- Python's `re.search(r'\b' + re.escape(kw) + r'\b', hay)` for the
letter-delimited keywords used by the ranker: a whole-word occurrence of
`kw` anywhere in `hay`. -/
def wholeWordMatch (kw hay : String) : Bool :=
  (List.range (hay.data.length + 1)).any (fun i => wordOccursAt kw.data hay.data i)

/-- Python's `str.isupper`: at least one cased character and every cased
character uppercase (ASCII letters here). -/
def pyIsUpper (s : String) : Bool :=
  let cased := s.data.filter Char.isAlpha
  !cased.isEmpty && cased.all Char.isUpper

/-- Python's `str.isdigit`: nonempty and all digits. -/
def pyIsDigit (s : String) : Bool :=
  !s.data.isEmpty && s.data.all Char.isDigit

/-- Auxiliary word counter; the flag records whether the scan is inside a
word. -/
def countWordsAux : Bool → List Char → ℕ
  | _, [] => 0
  | inWord, c :: t =>
    if c.isWhitespace then countWordsAux false t
    else (if inWord then 0 else 1) + countWordsAux true t

/-- Python's `len(s.split())`: number of maximal whitespace-free words. -/
def wordCount (s : String) : ℕ := countWordsAux false s.data

/-! ## Challenge_1b `semantic_searcher.py`: lexicons and `get_final_score` -/

/-- Source constant `PENALIZED_TITLES`: generic section titles that are
down-weighted. -/
def PENALIZED_TITLES : List String :=
  ["introduction", "conclusion", "summary", "preface", "contents",
   "table of contents", "abstract", "foreword", "epilogue"]

/-- Source constant `ACTIONABLE_KEYWORD_BOOSTS`: persona archetypes, each
with a keyword list and a boost factor, in the dictionary's insertion
order (which Python's `for key in dict` iteration follows). -/
def ACTIONABLE_KEYWORD_BOOSTS : List (String × List String × ℚ) :=
  [("Travel Planner",
    ["hotel", "restaurant", "budget", "itinerary", "plan", "schedule",
     "activities", "packing", "tips", "things to do", "nightlife",
     "accommodation", "attractions", "transportation", "booking", "tour",
     "guide", "travel", "destination", "sightseeing", "flights"],
    5/4),
   ("Food Contractor",
    ["menu", "recipe", "ingredient", "catering", "food", "cuisine", "cooking",
     "restaurant", "chef", "kitchen", "dining", "meal", "service", "nutrition",
     "preparation", "contract", "supplier", "procurement", "cost", "quality"],
    13/10),
   ("HR Professional",
    ["employee", "policy", "compliance", "recruitment", "hiring", "performance",
     "training", "onboarding", "benefits", "payroll", "management", "staff",
     "workplace", "procedures", "regulations", "human resources", "personnel",
     "development", "evaluation", "compensation"],
    6/5),
   ("Researcher",
    ["methodology", "methods", "results", "findings", "data", "analysis",
     "study", "experiment", "conclusion", "discussion"],
    13/10)]

/-- The `title_lower = section_title.lower().strip()` normalization. -/
def title_key (s : String) : String := trimString (lowerString s)

/-- Source `SemanticSearcher.get_final_score`: applies the generic-title
penalty (waived only when `persona == "Researcher"` and the normalized
title is `"conclusion"`), then at most one persona keyword boost (the
first archetype whose lowercased name is a substring of the lowercased
persona; the first keyword with a whole-word match in the title). -/
def get_final_score (base_score : ℚ) (section_title persona : String) : ℚ :=
  let tl := title_key section_title
  let f1 : ℚ :=
    if tl ∈ PENALIZED_TITLES then
      if ¬(persona = "Researcher" ∧ tl = "conclusion") then base_score * (7/10)
      else base_score
    else base_score
  match ACTIONABLE_KEYWORD_BOOSTS.find? (fun e => containsSubstr (lowerString e.1) (lowerString persona)) with
  | some e => if e.2.1.any (fun kw => wholeWordMatch kw tl) then f1 * e.2.2 else f1
  | none => f1

/-- The multiplicative contribution of the generic-title penalty branch of
`get_final_score`. -/
def penalty_factor (section_title persona : String) : ℚ :=
  if title_key section_title ∈ PENALIZED_TITLES then
    if ¬(persona = "Researcher" ∧ title_key section_title = "conclusion") then 7/10
    else 1
  else 1

/-- The multiplicative contribution of the persona keyword-boost branch of
`get_final_score`. -/
def boost_factor (section_title persona : String) : ℚ :=
  match ACTIONABLE_KEYWORD_BOOSTS.find? (fun e => containsSubstr (lowerString e.1) (lowerString persona)) with
  | some e =>
      if e.2.1.any (fun kw => wholeWordMatch kw (title_key section_title)) then e.2.2 else 1
  | none => 1

lemma get_final_score_eq (b : ℚ) (t p : String) :
    get_final_score b t p = b * penalty_factor t p * boost_factor t p := by
  simp only [get_final_score, penalty_factor, boost_factor]
  cases hf : ACTIONABLE_KEYWORD_BOOSTS.find? (fun e => containsSubstr (lowerString e.1) (lowerString p)) with
  | none => dsimp only; split_ifs <;> ring1
  | some e => dsimp only; split_ifs <;> ring1

lemma penalty_factor_cases (t p : String) :
    penalty_factor t p = 7/10 ∨ penalty_factor t p = 1 := by
  unfold penalty_factor
  split_ifs <;> simp

lemma boost_factor_cases (t p : String) :
    boost_factor t p = 1 ∨ boost_factor t p = 5/4 ∨ boost_factor t p = 13/10 ∨
      boost_factor t p = 6/5 := by
  unfold boost_factor
  cases hf : ACTIONABLE_KEYWORD_BOOSTS.find? (fun e => containsSubstr (lowerString e.1) (lowerString p)) with
  | none => simp
  | some e =>
      have hmem := List.mem_of_find?_eq_some hf
      simp only [ACTIONABLE_KEYWORD_BOOSTS, List.mem_cons, List.not_mem_nil, or_false] at hmem
      rcases hmem with h | h | h | h <;> subst h <;> dsimp only <;> split_ifs <;> norm_num

/-- Counterexample to C1: with persona exactly `"Researcher"` and title
`"Conclusion"` (base similarity `0.40`), the penalty is indeed waived but
the Researcher keyword boost (keyword `"conclusion"`, factor `1.3`) fires,
so `get_final_score` returns `0.52`, not `0.40`; and for the persona
`"a Researcher"`, which matches `"Researcher"` only by case-insensitive
substring containment, the waiver does not apply (the code tests
`persona == "Researcher"` by exact equality), so the penalty is applied
on top of the boost. -/
theorem C1_counterexample :
    get_final_score (2/5) "Conclusion" "Researcher" = 2/5 * (13/10) ∧
    (2/5 : ℚ) * (13/10) ≠ 2/5 ∧
    get_final_score (2/5) "Conclusion" "a Researcher" = 2/5 * (7/10) * (13/10) ∧
    (2/5 : ℚ) * (7/10) * (13/10) ≠ 2/5 * (13/10) :=
  ⟨rfl, by norm_num, rfl, by norm_num⟩

/-- Amended C1: the generic-title penalty on an exact-`"conclusion"` title
is waived only when the persona is the exact string `"Researcher"` (not
any case-insensitive substring match), and even then the final score is
`base × 1.3` (the Researcher boost keyword `"conclusion"` always fires on
this title), not `base`; a persona matching `"Researcher"` merely by
substring containment keeps the `0.70` penalty and also gets the boost. -/
theorem C1_amended (b : ℚ) :
    get_final_score b "Conclusion" "Researcher" = b * (13/10) ∧
    get_final_score b "Conclusion" "a Researcher" = b * (7/10) * (13/10) := by
  constructor
  · rw [get_final_score_eq, show penalty_factor "Conclusion" "Researcher" = 1 from rfl,
      show boost_factor "Conclusion" "Researcher" = 13/10 from rfl]
    ring1
  · rw [get_final_score_eq, show penalty_factor "Conclusion" "a Researcher" = 7/10 from rfl,
      show boost_factor "Conclusion" "a Researcher" = 13/10 from rfl]

/-- Confirmation of C6: for persona `"Food Contractor"` and base
similarity `0.50`, a chunk titled `"Menu Planning"` scores
`0.50 × 1.3 = 0.65` and a chunk titled `"Introduction"` scores
`0.50 × 0.70 = 0.35`, so the former ranks strictly above the latter;
moreover every final score is the base score times one penalty factor
(`0.70` or `1`) times at most one boost factor, so at most one keyword
boost is ever applied per chunk. -/
theorem C6_confirmed :
    get_final_score (1/2) "Menu Planning" "Food Contractor" = 1/2 * (13/10) ∧
    (1/2 : ℚ) * (13/10) = 13/20 ∧
    get_final_score (1/2) "Introduction" "Food Contractor" = 1/2 * (7/10) ∧
    (1/2 : ℚ) * (7/10) = 7/20 ∧
    get_final_score (1/2) "Introduction" "Food Contractor" <
      get_final_score (1/2) "Menu Planning" "Food Contractor" ∧
    ∀ (b : ℚ) (t p : String),
      get_final_score b t p = b * penalty_factor t p * boost_factor t p ∧
      (penalty_factor t p = 7/10 ∨ penalty_factor t p = 1) ∧
      (boost_factor t p = 1 ∨ boost_factor t p = 5/4 ∨ boost_factor t p = 13/10 ∨
        boost_factor t p = 6/5) := by
  refine ⟨rfl, by norm_num, rfl, by norm_num, ?_,
    fun b t p => ⟨get_final_score_eq b t p, penalty_factor_cases t p, boost_factor_cases t p⟩⟩
  rw [show get_final_score (1/2) "Introduction" "Food Contractor" = 1/2 * (7/10) from rfl,
    show get_final_score (1/2) "Menu Planning" "Food Contractor" = 1/2 * (13/10) from rfl]
  norm_num

/-- Confirmation of C10: on a strictly negative base similarity, an
applied generic-title penalty (factor `0.70`) yields a final score
strictly above the base score, while a matching persona keyword boost
(factor `> 1`) with no penalty applied yields a final score strictly
below it — both adjustments invert direction on negative similarities. -/
theorem C10_confirmed (b : ℚ) (t p : String) (hb : b < 0) :
    (penalty_factor t p = 7/10 → b < get_final_score b t p) ∧
    (penalty_factor t p = 1 → 1 < boost_factor t p → get_final_score b t p < b) := by
  constructor
  · intro hp
    rw [get_final_score_eq, hp]
    rcases boost_factor_cases t p with h | h | h | h <;> rw [h] <;> nlinarith
  · intro hp hb1
    rw [get_final_score_eq, hp]
    rcases boost_factor_cases t p with h | h | h | h <;> rw [h] at hb1 ⊢ <;> nlinarith

/-- Witness for C10 at concrete inputs: base `-0.5` with penalized title
`"Summary"` and unmatched persona rises, and with boosted title `"Menu"`
for persona `"Food Contractor"` falls. -/
theorem C10_witness :
    ((-1/2 : ℚ) < get_final_score (-1/2) "Summary" "Nobody") ∧
    get_final_score (-1/2) "Menu" "Food Contractor" < -1/2 := by
  constructor
  · exact (C10_confirmed (-1/2) "Summary" "Nobody" (by norm_num)).1 rfl
  · refine (C10_confirmed (-1/2) "Menu" "Food Contractor" (by norm_num)).2 rfl ?_
    rw [show boost_factor "Menu" "Food Contractor" = 13/10 from rfl]
    norm_num

/-! ## Challenge_1b chunk records, `main.py` diversity filter, `rank_chunks` -/

/-- Chunk record produced by `parse_pdf_to_chunks` (a Python dict).  The
three optional fields model the keys that ranking adds later; the chunker
creates the record without them. -/
structure Chunk where
  document : String
  page_number : ℕ
  section_title : String
  text : String
  base_similarity_score : Option ℚ := none
  final_score : Option ℚ := none
  importance_rank : Option ℕ := none
deriving DecidableEq, Repr

/-- The rank-assignment loops (`for i, result in enumerate(...): ... = i + 1`)
of `rank_chunks` and `run_analysis`, modelled as explicit state passing:
each record receives the 1-based position as its `importance_rank`. -/
def assignRanks : ℕ → List Chunk → List Chunk
  | _, [] => []
  | i, c :: rest => { c with importance_rank := some i } :: assignRanks (i + 1) rest

/-- Source `run_analysis` diversity loop (`main.py` lines 103-116): walk the
ranked results, keeping a result only if its text is unseen and its source
document has contributed fewer than `MAX_HITS_PER_DOC = 3` results. -/
def diversityLoop : List Chunk → List String → (String → ℕ) → List Chunk
  | [], _, _ => []
  | r :: rest, seen, counts =>
    if r.text ∉ seen ∧ counts r.document < 3 then
      r :: diversityLoop rest (r.text :: seen)
        (fun d => if d = r.document then counts d + 1 else counts d)
    else
      diversityLoop rest seen counts

/-- Source `run_analysis` post-ranking filtering (`main.py` lines 103-122):
the diversity loop, then truncation to `top_n_results = 20`, then rank
reassignment `1..N`. -/
def diversity_filter (ranked : List Chunk) : List Chunk :=
  assignRanks 1 ((diversityLoop ranked [] (fun _ => 0)).take 20)

lemma diversityLoop_length_le (l : List Chunk) :
    ∀ seen counts, (diversityLoop l seen counts).length ≤ l.length := by
  induction l with
  | nil => intro seen counts; simp [diversityLoop]
  | cons r rest ih =>
      intro seen counts
      rw [diversityLoop]
      split_ifs
      · simpa using ih _ _
      · exact le_trans (ih _ _) (by simp)

lemma diversityLoop_text_not_seen (l : List Chunk) :
    ∀ seen counts c, c ∈ diversityLoop l seen counts → c.text ∉ seen := by
  induction l with
  | nil => intro seen counts c hc; simp [diversityLoop] at hc
  | cons r rest ih =>
      intro seen counts c hc
      rw [diversityLoop] at hc
      split_ifs at hc with hcond
      · rcases List.mem_cons.1 hc with h | h
        · subst h; exact hcond.1
        · have := ih _ _ _ h
          exact fun hs => this (List.mem_cons_of_mem _ hs)
      · exact ih _ _ _ hc

lemma diversityLoop_pairwise (l : List Chunk) :
    ∀ seen counts,
      (diversityLoop l seen counts).Pairwise (fun a b => a.text ≠ b.text) := by
  induction l with
  | nil => intro seen counts; simp [diversityLoop]
  | cons r rest ih =>
      intro seen counts
      rw [diversityLoop]
      split_ifs
      · refine List.Pairwise.cons ?_ (ih _ _)
        intro b hb hEq
        have := diversityLoop_text_not_seen _ _ _ _ hb
        exact this (by simp [hEq])
      · exact ih _ _

lemma diversityLoop_countP (l : List Chunk) (d : String) :
    ∀ seen counts, counts d ≤ 3 →
      (diversityLoop l seen counts).countP (fun c => c.document == d) + counts d ≤ 3 := by
  induction l with
  | nil => intro seen counts h; simpa [diversityLoop] using h
  | cons r rest ih =>
      intro seen counts h
      rw [diversityLoop]
      split_ifs with hcond
      · by_cases hd : r.document = d
        · have hlt : counts d < 3 := by rw [← hd]; exact hcond.2
          have hc' : (fun x => if x = r.document then counts x + 1 else counts x) d
              = counts d + 1 := by
            show (if d = r.document then counts d + 1 else counts d) = counts d + 1
            rw [if_pos hd.symm]
          have hIH := ih (r.text :: seen)
            (fun x => if x = r.document then counts x + 1 else counts x) (by rw [hc']; omega)
          rw [hc'] at hIH
          have hp : (r.document == d) = true := by simp [hd]
          simp only [List.countP_cons, hp, if_true]
          omega
        · have hc' : (fun x => if x = r.document then counts x + 1 else counts x) d
              = counts d := by
            show (if d = r.document then counts d + 1 else counts d) = counts d
            rw [if_neg (fun h' => hd h'.symm)]
          have hIH := ih (r.text :: seen)
            (fun x => if x = r.document then counts x + 1 else counts x) (by rw [hc']; exact h)
          rw [hc'] at hIH
          have hp : (r.document == d) = false := by simp [hd]
          simp only [List.countP_cons, hp, Bool.false_eq_true, if_false]
          omega
      · exact ih _ _ h

lemma assignRanks_length (l : List Chunk) : ∀ k, (assignRanks k l).length = l.length := by
  induction l with
  | nil => intro k; simp [assignRanks]
  | cons c rest ih => intro k; simp [assignRanks, ih]

lemma assignRanks_map_text (l : List Chunk) :
    ∀ k, (assignRanks k l).map (fun c => c.text) = l.map (fun c => c.text) := by
  induction l with
  | nil => intro k; simp [assignRanks]
  | cons c rest ih => intro k; simp [assignRanks, ih]

lemma assignRanks_countP_doc (l : List Chunk) (d : String) :
    ∀ k, (assignRanks k l).countP (fun c => c.document == d) =
      l.countP (fun c => c.document == d) := by
  induction l with
  | nil => intro k; simp [assignRanks]
  | cons c rest ih => intro k; simp [assignRanks, List.countP_cons, ih]

lemma assignRanks_map_rank (l : List Chunk) :
    ∀ k, (assignRanks k l).map (fun c => c.importance_rank) =
      (List.range' k l.length).map some := by
  induction l with
  | nil => intro k; simp [assignRanks]
  | cons c rest ih => intro k; simp [assignRanks, List.range'_succ, ih]

lemma pairwise_text_of_map_eq {l₁ l₂ : List Chunk}
    (hmap : l₁.map (fun c => c.text) = l₂.map (fun c => c.text))
    (h : l₂.Pairwise (fun a b => a.text ≠ b.text)) :
    l₁.Pairwise (fun a b => a.text ≠ b.text) := by
  have h₂ : (l₂.map (fun c => c.text)).Pairwise (fun a b => a ≠ b) :=
    List.pairwise_map.2 h
  have h₁ : (l₁.map (fun c => c.text)).Pairwise (fun a b => a ≠ b) := hmap ▸ h₂
  exact List.pairwise_map.1 h₁

/-- Confirmation of C5: the diversity-filtered output of a ranking run has
size exactly `min 20 (number of eligible chunks kept by the loop)` — in
particular at most `min 20 (number of ranked chunks)` — no two kept
results share their exact text, no source document contributes more than 3
results, and `importance_rank` is reassigned as the consecutive integers
`1..N` in kept order. -/
theorem C5_confirmed (ranked : List Chunk) :
    (diversity_filter ranked).length =
      min 20 (diversityLoop ranked [] (fun _ => 0)).length ∧
    (diversity_filter ranked).length ≤ min 20 ranked.length ∧
    (diversity_filter ranked).Pairwise (fun a b => a.text ≠ b.text) ∧
    (∀ d : String, (diversity_filter ranked).countP (fun c => c.document == d) ≤ 3) ∧
    (diversity_filter ranked).map (fun c => c.importance_rank) =
      (List.range' 1 (diversity_filter ranked).length).map some := by
  refine ⟨?_, ?_, ?_, ?_, ?_⟩
  · rw [diversity_filter, assignRanks_length, List.length_take]
  · rw [diversity_filter, assignRanks_length, List.length_take]
    have := diversityLoop_length_le ranked [] (fun _ => 0)
    omega
  · refine pairwise_text_of_map_eq (assignRanks_map_text _ 1) ?_
    exact (diversityLoop_pairwise ranked [] _).sublist (List.take_sublist _ _)
  · intro d
    rw [diversity_filter, assignRanks_countP_doc]
    refine le_trans (List.Sublist.countP_le _ (List.take_sublist _ _)) ?_
    simpa using diversityLoop_countP ranked d [] (fun _ => 0) (by simp)
  · rw [diversity_filter, assignRanks_map_rank, assignRanks_length]

/-- The scoring loop of `rank_chunks` (`semantic_searcher.py` lines
114-124), which mutates each chunk dict in place, modelled as explicit
state passing: the result is the state of the caller's chunk list after
the loop.  `scores` is the cosine-similarity row computed by the embedding
collaborator (one score per chunk). -/
def enrich_chunks (chunks : List Chunk) (scores : List ℚ) (persona : String) : List Chunk :=
  List.zipWith (fun c s =>
    { c with base_similarity_score := some s,
             final_score := some (get_final_score s c.section_title persona) }) chunks scores

/-- Sort key `lambda x: x['final_score']` (always present after
enrichment). -/
def finalScoreKey (c : Chunk) : ℚ := c.final_score.getD 0

/-- Source `SemanticSearcher.rank_chunks`: returns the enriched chunks
stably sorted by descending final score with `importance_rank` assigned
`1..N`; Python's stable `sorted(..., reverse=True)` is modelled by stable
insertion sort with the reversed non-strict comparison. -/
def rank_chunks (chunks : List Chunk) (scores : List ℚ) (persona : String) : List Chunk :=
  if chunks.isEmpty then []
  else assignRanks 1
    (List.insertionSort (fun a b => finalScoreKey b ≤ finalScoreKey a)
      (enrich_chunks chunks scores persona))

/-- The chunker-assigned fields of a chunk record, which ranking never
touches. -/
def chunkCore (c : Chunk) : String × ℕ × String × String :=
  (c.document, c.page_number, c.section_title, c.text)

lemma enrich_chunks_map_core (persona : String) :
    ∀ (chunks : List Chunk) (scores : List ℚ), scores.length = chunks.length →
      (enrich_chunks chunks scores persona).map chunkCore = chunks.map chunkCore := by
  intro chunks
  induction chunks with
  | nil => intro scores h; simp [enrich_chunks]
  | cons c rest ih =>
      intro scores h
      cases scores with
      | nil => simp at h
      | cons s ss =>
          simp only [enrich_chunks, List.zipWith_cons_cons, List.map_cons]
          refine congrArg₂ _ rfl ?_
          exact ih ss (by simpa using h)

lemma assignRanks_map_core (l : List Chunk) :
    ∀ k, (assignRanks k l).map chunkCore = l.map chunkCore := by
  induction l with
  | nil => intro k; simp [assignRanks]
  | cons c rest ih => intro k; simp [assignRanks, ih, chunkCore]

/-- Counterexample to C9: the scoring loop of `rank_chunks` mutates the
caller's chunk records — after the call, the chunk carries
`base_similarity_score` and `final_score` keys it did not have before, so
the input chunk's fields are not unchanged. -/
theorem C9_counterexample :
    enrich_chunks [{ document := "d", page_number := 1, section_title := "t", text := "x" }]
        [1/2] "P" ≠
      [{ document := "d", page_number := 1, section_title := "t", text := "x" }] := by
  simp [enrich_chunks]

/-- Amended C9: `rank_chunks` enriches the caller's chunk records in place
with `base_similarity_score`, `final_score` and `importance_rank`, so the
records do change; but the chunker-assigned fields (document, page number,
section title, text) are never modified, and the returned ranking is a
permutation of the enriched input chunks. -/
theorem C9_amended (chunks : List Chunk) (scores : List ℚ) (persona : String)
    (h : scores.length = chunks.length) :
    (enrich_chunks chunks scores persona).map chunkCore = chunks.map chunkCore ∧
    ((rank_chunks chunks scores persona).map chunkCore).Perm (chunks.map chunkCore) := by
  refine ⟨enrich_chunks_map_core persona chunks scores h, ?_⟩
  rw [rank_chunks]
  split_ifs with he
  · rw [List.isEmpty_iff.1 he]
  · rw [assignRanks_map_core]
    calc ((List.insertionSort (fun a b => finalScoreKey b ≤ finalScoreKey a)
            (enrich_chunks chunks scores persona)).map chunkCore).Perm
          ((enrich_chunks chunks scores persona).map chunkCore) :=
            (List.perm_insertionSort _ _).map chunkCore
      _ = chunks.map chunkCore := enrich_chunks_map_core persona chunks scores h

/-- Witness for C9 at a concrete one-chunk input. -/
theorem C9_witness :
    (enrich_chunks [{ document := "d", page_number := 1, section_title := "t", text := "x" }]
        [1/2] "P").map chunkCore =
      [{ document := "d", page_number := 1, section_title := "t", text := "x" : Chunk }].map chunkCore ∧
    ((rank_chunks [{ document := "d", page_number := 1, section_title := "t", text := "x" }]
        [1/2] "P").map chunkCore).Perm
      ([{ document := "d", page_number := 1, section_title := "t", text := "x" : Chunk }].map chunkCore) :=
  C9_amended _ _ "P" rfl

/-! ## Challenge_1b `pdf_parser.py` -/

namespace PdfParser

/-- One PyMuPDF text span: `{text, size, flags}` (the fields the parser
reads). -/
structure Span where
  text : String
  size : ℚ
  flags : ℕ
deriving DecidableEq, Repr

/-- One PyMuPDF block: its type (`0` for text), bounding box
`(x0, y0, x1, y1)`, and its lines, each a list of spans. -/
structure PBlock where
  btype : ℕ
  bbox : ℚ × ℚ × ℚ × ℚ
  lines : List (List Span)
deriving DecidableEq, Repr

/-- One page: its height and its blocks, in reading order. -/
structure PPage where
  height : ℚ
  blocks : List PBlock
deriving DecidableEq, Repr

/-- Python's built-in `round` (banker's rounding, half to even). -/
def pyround (q : ℚ) : ℤ :=
  if q - ⌊q⌋ < 1/2 then ⌊q⌋
  else if q - ⌊q⌋ > 1/2 then ⌊q⌋ + 1
  else if ⌊q⌋ % 2 = 0 then ⌊q⌋ else ⌊q⌋ + 1

/-- Distinct values of a list in first-occurrence order (`seen` is the
accumulator of values already emitted). -/
def firstOccs {α : Type} [DecidableEq α] : List α → List α → List α
  | _, [] => []
  | seen, x :: t => if x ∈ seen then firstOccs seen t else x :: firstOccs (x :: seen) t

/-- Python's `Counter(l).most_common(1)[0][0]` (as an `Option` for the
empty list): a value of maximal multiplicity, ties broken by first
occurrence (Counter preserves insertion order and `most_common` sorts
stably by descending count). -/
def most_common_one {α : Type} [DecidableEq α] (l : List α) : Option α :=
  match firstOccs [] l with
  | [] => none
  | x :: rest => some (rest.foldl (fun best c => if l.count c > l.count best then c else best) x)

/-- Source `is_likely_heading` (`pdf_parser.py`): a span is headingish when
it is bold, markedly larger than the body font, or all-caps, is short
(fewer than 12 words), and does not end in a period. -/
def is_likely_heading (span : Span) (body_font_size : ℚ) : Bool :=
  if trimString span.text = "" then false
  else
    let is_bold := span.flags.testBit 4
    let is_larger := span.size > body_font_size * (23/20)
    let is_all_caps := pyIsUpper span.text && decide (span.text.data.length > 4)
    if (is_bold || is_larger || is_all_caps) && decide (wordCount span.text < 12) then
      !((trimList span.text.data).getLast? == some '.')
    else false

/-- Python's `text.replace('-\n', '')`, left to right. -/
def removeHyphenNewline : List Char → List Char
  | [] => []
  | '-' :: '\n' :: t => removeHyphenNewline t
  | c :: t => c :: removeHyphenNewline t

/-- Collapse whitespace runs to single spaces (`re.sub(r'\s+', ' ', text)`);
the flag records whether the previous character was whitespace. -/
def collapseWsAux : Bool → List Char → List Char
  | _, [] => []
  | prevWs, c :: t =>
    if c.isWhitespace then
      if prevWs then collapseWsAux true t else ' ' :: collapseWsAux true t
    else c :: collapseWsAux false t

/-- Source `clean_text`: de-hyphenate line breaks, turn newlines into
spaces, strip, collapse whitespace runs. -/
def clean_text (s : String) : String :=
  ⟨collapseWsAux false
    (trimList ((removeHyphenNewline s.data).map (fun c => if c == '\n' then ' ' else c)))⟩

/-- Python's `" ".join(parts)`. -/
def joinSpace : List String → String
  | [] => ""
  | [s] => s
  | s :: rest => s ++ " " ++ joinSpace rest

/-- The raw concatenation of every span text of a block
(`"".join(span["text"] for line ... for span ...)`). -/
def blockTextRaw (b : PBlock) : List Char :=
  ((b.lines.map (fun ln => ln.map (fun sp => sp.text.data))).flatten).flatten

/-- Block text after the source's `.strip()`. -/
def block_text (b : PBlock) : String := ⟨trimList (blockTextRaw b)⟩

/-- First span of the first line, used for the heading test.  The source
indexes with `.get(..., [{}])[0]`; a block whose first line has no spans
would raise in Python, but the extraction collaborator always emits
nonempty span lists, and a missing-lines block falls through to the
content branch, which this model mirrors by returning `none`. -/
def firstSpan? (b : PBlock) : Option Span :=
  match b.lines with
  | [] => none
  | ln :: _ =>
    match ln with
    | [] => none
    | sp :: _ => some sp

/-- Parser loop state: the active section title, the open paragraph
buffer, the page marker used for the next flush, and the emitted chunks. -/
structure ParseState where
  current_section_title : String
  current_paragraph_texts : List String
  paragraph_start_page : ℕ
  chunks : List Chunk
deriving Repr

/-- Finalize the open paragraph into a chunk (dropped when its cleaned
text is shorter than `MIN_PARAGRAPH_LENGTH = 40`). -/
def flushParagraph (docname : String) (st : ParseState) : List Chunk :=
  if st.current_paragraph_texts ≠ [] then
    let text_content := clean_text (joinSpace st.current_paragraph_texts)
    if text_content.data.length ≥ 40 then
      st.chunks ++ [{ document := docname, page_number := st.paragraph_start_page,
                      section_title := st.current_section_title, text := text_content }]
    else st.chunks
  else st.chunks

/-- Per-block step of the parser loop (`pdf_parser.py` lines 104-139):
skip non-text blocks, header/footer bands (`HEADER_FOOTER_MARGIN = 50`)
and bare page numbers; flush on a heading and start a new section, else
append to the open paragraph. -/
def processBlock (docname : String) (body : ℚ) (page_num : ℕ) (page_height : ℚ)
    (st : ParseState) (b : PBlock) : ParseState :=
  if b.btype ≠ 0 then st
  else if b.bbox.2.1 < 50 ∨ b.bbox.2.2.2 > page_height - 50 then st
  else
    if block_text b = "" ∨ pyIsDigit (block_text b) then st
    else
      match firstSpan? b with
      | some sp =>
        if is_likely_heading sp body then
          { current_section_title := clean_text (block_text b),
            current_paragraph_texts := [],
            paragraph_start_page := page_num + 1,
            chunks := flushParagraph docname st }
        else { st with current_paragraph_texts := st.current_paragraph_texts ++ [block_text b] }
      | none => { st with current_paragraph_texts := st.current_paragraph_texts ++ [block_text b] }

/-- Per-page step: the page-start marker update (`pdf_parser.py` lines
99-102) followed by the block loop.  `page_num` is 0-based as in the
source's `enumerate(doc)`. -/
def processPage (docname : String) (body : ℚ) (page_num : ℕ) (pg : PPage)
    (st : ParseState) : ParseState :=
  let st1 :=
    if 0 < page_num ∧ st.current_paragraph_texts ≠ [] then
      { st with paragraph_start_page := page_num }
    else
      { st with paragraph_start_page := page_num + 1 }
  pg.blocks.foldl (processBlock docname body page_num pg.height) st1

/-- The page loop of `parse_pdf_to_chunks`. -/
def parsePages (docname : String) (body : ℚ) : ℕ → List PPage → ParseState → ParseState
  | _, [], st => st
  | n, pg :: rest, st => parsePages docname body (n + 1) rest (processPage docname body n pg st)

/-- The font-size census of the first pass (`round(span["size"])` per span
of each text block). -/
def doc_font_sizes (pages : List PPage) : List ℤ :=
  (pages.map (fun pg =>
    (((pg.blocks.filter (fun b => b.btype == 0)).map (fun b =>
      (b.lines.map (fun ln => ln.map (fun sp => pyround sp.size))).flatten)).flatten))).flatten

/-- Source body-font estimate: modal rounded span size, `10.0` when no
text exists. -/
def body_font_size (pages : List PPage) : ℚ :=
  match most_common_one (doc_font_sizes pages) with
  | some z => (z : ℚ)
  | none => 10

/-- Source `parse_pdf_to_chunks` (given the extraction collaborator's
pages): font census, page/block loop, final flush. -/
def parse_pdf_to_chunks (doc_filename : String) (pages : List PPage) : List Chunk :=
  let body := body_font_size pages
  let final := parsePages doc_filename body 0 pages
    { current_section_title := "Introduction", current_paragraph_texts := [],
      paragraph_start_page := 1, chunks := [] }
  flushParagraph doc_filename final


namespace C4Fixture

/-- Content span on the first page (39 characters, 8 words, size 10, not
bold). -/
def spanA : Span := { text := "This is the opening half of a paragraph", size := 10, flags := 0 }

/-- Content block wrapping `spanA`, inside the content band of a
300-unit-high page. -/
def blockA : PBlock := { btype := 0, bbox := (0, 100, 10, 120), lines := [[spanA]] }

/-- First page. -/
def pageA : PPage := { height := 300, blocks := [blockA] }

/-- Content span continuing the same paragraph on the next page. -/
def spanB : Span := { text := "and this is its closing half right here", size := 10, flags := 0 }

/-- Content block wrapping `spanB`. -/
def blockB : PBlock := { btype := 0, bbox := (0, 100, 10, 120), lines := [[spanB]] }

/-- Second page (paragraph continues here). -/
def pageB : PPage := { height := 300, blocks := [blockB] }

/-- Bold heading span (PyMuPDF bold flag is bit 4, so `flags = 16`). -/
def spanH : Span := { text := "NEXT SECTION", size := 10, flags := 16 }

/-- Heading block wrapping `spanH`; it flushes the open paragraph. -/
def blockH : PBlock := { btype := 0, bbox := (0, 100, 10, 120), lines := [[spanH]] }

/-- Third page holding only the flushing heading. -/
def pageH : PPage := { height := 300, blocks := [blockH] }

/-- Variant second page where the flushing heading follows the paragraph's
continuation on the same page (the paragraph then spans only one page
boundary). -/
def pageBH : PPage := { height := 300, blocks := [blockB, blockH] }

end C4Fixture

/-- Code bug C4: a paragraph that starts accumulating on page 1 and is
flushed by a heading on page 3 is recorded with `page_number = 2`, not
page 1 where it began — the page-start marker (`pdf_parser.py` lines
99-102) is reset to the previous page at every page boundary, which
preserves the true start page only across a single boundary (second
conjunct: with the flushing heading on page 2 the same paragraph is
correctly recorded on page 1), contradicting the source comment "Keep
track of the page number where the current paragraph started". -/
theorem C4_page_marker_bug :
    parse_pdf_to_chunks "doc.pdf" [C4Fixture.pageA, C4Fixture.pageB, C4Fixture.pageH] =
      [{ document := "doc.pdf", page_number := 2, section_title := "Introduction",
         text := "This is the opening half of a paragraph and this is its closing half right here" }] ∧
    parse_pdf_to_chunks "doc.pdf" [C4Fixture.pageA, C4Fixture.pageBH] =
      [{ document := "doc.pdf", page_number := 1, section_title := "Introduction",
         text := "This is the opening half of a paragraph and this is its closing half right here" }] :=
  of_decide_eq_true (by with_unfolding_all rfl)

end PdfParser

/-! ## Challenge_1a `process_pdfs.py` -/

namespace ProcessPdfs

/-- One text line with the features the classifier and builder read
(`extract_text_features` also computes `max_font_size`, `is_italic`, line
dimensions, block/line indices and color, but nothing downstream ever
reads them). `page` is the 1-based page number attached in
`process_pdf`. -/
structure Element where
  text : String
  font_size : ℚ
  is_bold : Bool
  x_position : ℚ
  y_position : ℚ
  page : ℤ
deriving DecidableEq, Repr

/-- Document-wide font statistics (`calculate_font_statistics` result). -/
structure FontStats where
  body_size : ℚ
  avg_size : ℚ
  std_size : ℚ
  heading_threshold : ℚ
  large_heading_threshold : ℚ
deriving DecidableEq, Repr

/-- Sample variance with Bessel's correction, the square of Python's
`statistics.stdev`. -/
def sampleVariance (l : List ℚ) : ℚ :=
  ((l.map (fun x => (x - l.sum / l.length) ^ 2)).sum) / (l.length - 1)

/-- Characterization of `statistics.stdev l = s`: the standard deviation
is irrational in general, so the embedding passes it as an explicit
parameter constrained by this predicate. -/
def stdevSpec (l : List ℚ) (s : ℚ) : Prop := 0 ≤ s ∧ s ^ 2 = sampleVariance l

instance (l : List ℚ) (s : ℚ) : Decidable (stdevSpec l s) := by
  unfold stdevSpec; infer_instance

/-- Source `calculate_font_statistics`.  `std` is the value of
`statistics.stdev(font_sizes)` (see `stdevSpec`); the source's empty-input
branch returns a dict carrying only `body_size` and `heading_threshold`,
and the remaining fields are never read on that path because `process_pdf`
returns before computing statistics of an empty element list — the
defaults used here are inert. -/
def calculate_font_statistics (text_elements : List Element) (std : ℚ) : FontStats :=
  let font_sizes := text_elements.map (fun e => e.font_size)
  if font_sizes.isEmpty then
    { body_size := 12, avg_size := 12, std_size := 2, heading_threshold := 14,
      large_heading_threshold := 16 }
  else
    let body_size := (PdfParser.most_common_one font_sizes).getD 12
    let std_size := if font_sizes.length > 1 then std else 2
    { body_size := body_size,
      avg_size := font_sizes.sum / font_sizes.length,
      std_size := std_size,
      heading_threshold := body_size + std_size,
      large_heading_threshold := body_size + 2 * std_size }

/-- Prefix test consuming one or more characters satisfying `p`; returns
the rest of the input on success (greedy, which is equivalent to the
regex `p+` here because every follower class is disjoint from `p`). -/
def chomp1 (p : Char → Bool) : List Char → Option (List Char)
  | [] => none
  | c :: t => if p c then some (t.dropWhile p) else none

/-- Suffix test for the regex tail `\s+.+`: one whitespace character
followed by at least one more character of any kind. -/
def wsThenAny : List Char → Bool
  | c :: _ :: _ => c.isWhitespace
  | _ => false

/-- Suffix test for the regex tail `\s+\d`: whitespace run, then a
digit. -/
def wsThenDigit (l : List Char) : Bool :=
  match l with
  | c :: t => c.isWhitespace &&
      (match t.dropWhile Char.isWhitespace with
       | d :: _ => d.isDigit
       | [] => false)
  | [] => false

/-- Suffix test for the regex tail `\s+[IVX\d]` under `re.IGNORECASE` on
lowercased input. -/
def wsThenIvxDigit (l : List Char) : Bool :=
  match l with
  | c :: t => c.isWhitespace &&
      (match t.dropWhile Char.isWhitespace with
       | d :: _ => d.isDigit || d == 'i' || d == 'v' || d == 'x'
       | [] => false)
  | [] => false

/-- Suffix test for the regex tail `\s+[A-Z][a-z]` under `re.IGNORECASE`
(two letters of any case). -/
def wsThenTwoAlpha (l : List Char) : Bool :=
  match l with
  | c :: t => c.isWhitespace &&
      (match t.dropWhile Char.isWhitespace with
       | a :: b :: _ => a.isAlpha && b.isAlpha
       | _ => false)
  | [] => false

/-- Regex `^\d+\.\s+.+` (`1. Title`). -/
def patNumDot (l : List Char) : Bool :=
  match chomp1 Char.isDigit l with
  | some ('.' :: r) => wsThenAny r
  | _ => false

/-- Regex `^\d+\.\d+\s+.+` (`1.1 Subtitle`). -/
def patNumDotNum (l : List Char) : Bool :=
  match chomp1 Char.isDigit l with
  | some ('.' :: r) =>
    match chomp1 Char.isDigit r with
    | some r2 => wsThenAny r2
    | none => false
  | _ => false

/-- Regex `^\d+\.\d+\.\d+\s+.+` (`1.1.1 Sub-subtitle`). -/
def patNumDotNumDotNum (l : List Char) : Bool :=
  match chomp1 Char.isDigit l with
  | some ('.' :: r) =>
    match chomp1 Char.isDigit r with
    | some ('.' :: r2) =>
      match chomp1 Char.isDigit r2 with
      | some r3 => wsThenAny r3
      | none => false
    | _ => false
  | _ => false

/-- Regex `^[IVX]+\.\s+.+` under `re.IGNORECASE` on lowercased input. -/
def patRoman (l : List Char) : Bool :=
  match chomp1 (fun c => c == 'i' || c == 'v' || c == 'x') l with
  | some ('.' :: r) => wsThenAny r
  | _ => false

/-- Regex `^[A-Z]\.\s+.+` under `re.IGNORECASE` (one letter, dot, tail). -/
def patLetterDot (l : List Char) : Bool :=
  match l with
  | a :: '.' :: r => a.isAlpha && wsThenAny r
  | _ => false

/-- Regex `^Chapter\s+\d+` under `re.IGNORECASE` on lowercased input. -/
def patChapter (l : List Char) : Bool :=
  startsWithList "chapter".data l && wsThenDigit (l.drop 7)

/-- Regex `^Section\s+\d+` under `re.IGNORECASE` on lowercased input. -/
def patSection (l : List Char) : Bool :=
  startsWithList "section".data l && wsThenDigit (l.drop 7)

/-- Regex `^Part\s+[IVX\d]+` under `re.IGNORECASE` on lowercased input. -/
def patPart (l : List Char) : Bool :=
  startsWithList "part".data l && wsThenIvxDigit (l.drop 4)

/-- Regex `^\d+\s+[A-Z][a-z]` under `re.IGNORECASE` (`1 Introduction`). -/
def patNumTitle (l : List Char) : Bool :=
  match chomp1 Char.isDigit l with
  | some r => wsThenTwoAlpha r
  | none => false

/-- Regex `^[A-Z][A-Z\s]{10,}$` under `re.IGNORECASE`: one letter followed
by at least ten letters-or-whitespace reaching the end of the line (the
`IGNORECASE` flag makes this match any long letters-and-spaces line, not
just all-caps ones). -/
def patAllCaps (l : List Char) : Bool :=
  match l with
  | a :: t => a.isAlpha && decide (t.length ≥ 10) &&
      t.all (fun c => c.isAlpha || c.isWhitespace)
  | [] => false

/-- Source `heading_patterns` tried by `re.match(pattern, text,
re.IGNORECASE)`: anchored match of any of the ten structural regexes,
modelled on the lowercased text (case-insensitive classes become
`isAlpha`/lowercase literals). -/
def matchesHeadingPattern (text : String) : Bool :=
  let l := (lowerString text).data
  patNumDot l || patNumDotNum l || patNumDotNumDotNum l || patRoman l ||
  patLetterDot l || patChapter l || patSection l || patPart l ||
  patNumTitle l || patAllCaps l

/-- Source `heading_keywords` (a Python set; only tested by membership). -/
def heading_keywords : List String :=
  ["introduction", "conclusion", "abstract", "summary", "overview",
   "background", "methodology", "results", "discussion", "references",
   "appendix", "chapter", "section", "part", "table of contents",
   "executive summary", "acknowledgments", "bibliography"]

/-- Non-heading artifact markers penalized by the classifier. -/
def artifact_markers : List String :=
  ["page", "figure", "table", "source:", "note:"]

/-- Font-size contribution of the classifier's confidence score
(`is_likely_heading` lines 119-125). -/
def font_size_score (font_size : ℚ) (font_stats : FontStats) : ℚ :=
  if font_size > font_stats.large_heading_threshold then 2/5
  else if font_size > font_stats.heading_threshold then 1/4
  else if font_size > font_stats.body_size then 1/10
  else 0

/-- The accumulated confidence of source `is_likely_heading`: font-size
bracket, bold bonus, structural-regex bonus, keyword bonus, left-margin
and short-line bonuses, all-caps bonus, long-line and artifact
penalties. -/
def heading_confidence (text : String) (element : Element) (font_stats : FontStats) : ℚ :=
  font_size_score element.font_size font_stats
  + (if element.is_bold then 3/10 else 0)
  + (if matchesHeadingPattern text then 7/20 else 0)
  + (if heading_keywords.any (fun kw => containsSubstr kw (title_key text)) then 1/5 else 0)
  + (if element.x_position < 100 then 1/10 else 0)
  + (if wordCount text ≤ 8 then 1/10 else 0)
  + (if pyIsUpper text && decide (wordCount text ≤ 6) then 1/5 else 0)
  - (if wordCount text > 15 then 1/5 else 0)
  - (if artifact_markers.any (fun kw => containsSubstr kw (title_key text)) then 3/10 else 0)

/-- Source `is_likely_heading`: the acceptance verdict (confidence above
`0.4`) together with the confidence. -/
def is_likely_heading (text : String) (element : Element) (font_stats : FontStats) :
    Bool × ℚ :=
  (decide (heading_confidence text element font_stats > 2/5),
   heading_confidence text element font_stats)

/-- Source `determine_heading_level`: level from font size relative to the
document statistics. -/
def determine_heading_level (element : Element) (font_stats : FontStats) : String :=
  if element.font_size > font_stats.body_size + 2 * font_stats.std_size then "H1"
  else if element.font_size > font_stats.body_size + font_stats.std_size then "H2"
  else "H3"

/-- Outline item as built by `process_pdf` before post-processing (the
dict with `level`, `text`, `page`, `confidence`, `y_position`). -/
structure OutlineItem where
  level : String
  text : String
  page : ℤ
  confidence : ℚ
  y_position : Option ℚ
deriving DecidableEq, Repr

/-- Final outline entry after `confidence` and `y_position` are popped. -/
structure Entry where
  level : String
  text : String
  page : ℤ
deriving DecidableEq, Repr

/-- Dedup loop of `post_process_outline`: keep an item when its
lowercased-trimmed text has not been kept before and is longer than two
characters. -/
def post_process_loop : List OutlineItem → List String → List OutlineItem
  | [], _ => []
  | it :: rest, seen =>
    if title_key it.text ∉ seen ∧ (title_key it.text).data.length > 2 then
      it :: post_process_loop rest (title_key it.text :: seen)
    else post_process_loop rest seen

/-- Sort key `lambda x: (x['page'], x.get('y_position', 0))` as a
non-strict lexicographic comparison. -/
def sortKeyLe (a b : OutlineItem) : Prop :=
  a.page < b.page ∨ (a.page = b.page ∧ a.y_position.getD 0 ≤ b.y_position.getD 0)

instance : DecidableRel sortKeyLe := fun a b => by
  unfold sortKeyLe; infer_instance

instance : IsTotal OutlineItem sortKeyLe := by
  constructor
  intro a b
  unfold sortKeyLe
  rcases lt_trichotomy a.page b.page with h | h | h
  · exact Or.inl (Or.inl h)
  · rcases le_total (a.y_position.getD 0) (b.y_position.getD 0) with hy | hy
    · exact Or.inl (Or.inr ⟨h, hy⟩)
    · exact Or.inr (Or.inr ⟨h.symm, hy⟩)
  · exact Or.inr (Or.inl h)

instance : IsTrans OutlineItem sortKeyLe := by
  constructor
  intro a b c hab hbc
  unfold sortKeyLe at *
  rcases hab with h1 | ⟨h1, hy1⟩ <;> rcases hbc with h2 | ⟨h2, hy2⟩
  · exact Or.inl (h1.trans h2)
  · exact Or.inl (h2 ▸ h1)
  · exact Or.inl (h1 ▸ h2)
  · exact Or.inr ⟨h1.trans h2, hy1.trans hy2⟩

/-- Source `post_process_outline`: dedup by lowercased text (first
occurrence wins), stable sort by `(page, y_position)`, cap at 50
entries. -/
def post_process_outline (outline : List OutlineItem) : List OutlineItem :=
  (List.insertionSort sortKeyLe (post_process_loop outline [])).take 50

/-- Source `extract_existing_outline`: map the native bookmark table of
contents verbatim (depth 1 to `H1`, 2 to `H2`, deeper to `H3`). -/
def extract_existing_outline (toc : List (ℤ × String × ℤ)) : List Entry :=
  toc.map (fun item =>
    { level := if item.1 ≤ (1 : ℤ) then "H1" else if item.1 ≤ (2 : ℤ) then "H2" else "H3",
      text := trimString item.2.1,
      page := item.2.2 })

/-- Projection dropping `confidence`/`y_position` (`item.pop(...)`). -/
def toEntry (it : OutlineItem) : Entry :=
  { level := it.level, text := it.text, page := it.page }

/-- Result of `process_pdf`: the JSON `{"title": ..., "outline": [...]}`. -/
structure PdfResult where
  title : String
  outline : List Entry
deriving DecidableEq, Repr

/-- Source `process_pdf` for a document with filename stem `stem`, native
bookmark list `toc`, extracted text elements (page-tagged, first 20 pages)
and font-size standard deviation `std` (see `stdevSpec`): the bookmark
fast path, the empty-document fallback, or layout inference through the
classifier and `post_process_outline`. -/
def process_pdf (stem : String) (toc : List (ℤ × String × ℤ))
    (all_text_elements : List Element) (std : ℚ) : PdfResult :=
  let existing_outline := extract_existing_outline toc
  if existing_outline ≠ [] then
    { title := stem, outline := existing_outline }
  else if all_text_elements = [] then
    { title := stem, outline := [] }
  else
    let font_stats := calculate_font_statistics all_text_elements std
    let outline := all_text_elements.filterMap (fun element =>
      if (is_likely_heading element.text element font_stats).1 then
        some { level := determine_heading_level element font_stats,
               text := element.text,
               page := element.page,
               confidence := (is_likely_heading element.text element font_stats).2,
               y_position := some element.y_position }
      else none)
    { title := stem, outline := (post_process_outline outline).map toEntry }

end ProcessPdfs

namespace ProcessPdfs

lemma font_size_score_mono (fs : FontStats) {s1 s2 : ℚ} (h : s1 ≤ s2) :
    font_size_score s1 fs ≤ font_size_score s2 fs := by
  unfold font_size_score
  split_ifs <;> linarith

/-- Confirmation of C7: increasing a line's font size while holding the
text, the other layout features and the document font statistics fixed
never decreases the confidence assigned by `is_likely_heading` — only the
font-size bracket term depends on the size, and its bracket values
`0 < 0.1 < 0.25 < 0.4` are scanned from the largest threshold down. -/
theorem C7_confirmed (t : String) (e : Element) (fs : FontStats) (s1 s2 : ℚ) (h : s1 ≤ s2) :
    (is_likely_heading t { e with font_size := s1 } fs).2 ≤
      (is_likely_heading t { e with font_size := s2 } fs).2 := by
  simp only [is_likely_heading, heading_confidence]
  have hm := font_size_score_mono fs h
  dsimp only
  linarith [hm]

/-- Witness for C7 at a concrete line and statistics, with font sizes `10`
and `14`. -/
theorem C7_witness :
    (is_likely_heading "Overview"
        { text := "Overview", font_size := 10, is_bold := false, x_position := 0,
          y_position := 0, page := 1 }
        { body_size := 10, avg_size := 10, std_size := 1, heading_threshold := 11,
          large_heading_threshold := 12 }).2 ≤
      (is_likely_heading "Overview"
        { text := "Overview", font_size := 14, is_bold := false, x_position := 0,
          y_position := 0, page := 1 }
        { body_size := 10, avg_size := 10, std_size := 1, heading_threshold := 11,
          large_heading_threshold := 12 }).2 :=
  C7_confirmed "Overview"
    { text := "Overview", font_size := 10, is_bold := false, x_position := 0,
      y_position := 0, page := 1 }
    { body_size := 10, avg_size := 10, std_size := 1, heading_threshold := 11,
      large_heading_threshold := 12 }
    10 14 (by norm_num)

lemma post_process_loop_key_not_seen (l : List OutlineItem) :
    ∀ seen it, it ∈ post_process_loop l seen → title_key it.text ∉ seen := by
  induction l with
  | nil => intro seen it hit; simp [post_process_loop] at hit
  | cons a rest ih =>
      intro seen it hit
      rw [post_process_loop] at hit
      split_ifs at hit with hcond
      · rcases List.mem_cons.1 hit with h | h
        · subst h; exact hcond.1
        · have := ih _ _ h
          exact fun hs => this (List.mem_cons_of_mem _ hs)
      · exact ih _ _ hit

lemma post_process_loop_pairwise (l : List OutlineItem) :
    ∀ seen, (post_process_loop l seen).Pairwise
      (fun a b => title_key a.text ≠ title_key b.text) := by
  induction l with
  | nil => intro seen; simp [post_process_loop]
  | cons a rest ih =>
      intro seen
      rw [post_process_loop]
      split_ifs
      · refine List.Pairwise.cons ?_ (ih _)
        intro b hb hEq
        have := post_process_loop_key_not_seen _ _ _ hb
        exact this (by simp [hEq])
      · exact ih _

lemma post_process_loop_long (l : List OutlineItem) :
    ∀ seen it, it ∈ post_process_loop l seen → (title_key it.text).data.length > 2 := by
  induction l with
  | nil => intro seen it hit; simp [post_process_loop] at hit
  | cons a rest ih =>
      intro seen it hit
      rw [post_process_loop] at hit
      split_ifs at hit with hcond
      · rcases List.mem_cons.1 hit with h | h
        · subst h; exact hcond.2
        · exact ih _ _ h
      · exact ih _ _ hit

/-- Counterexample to C3: two heading candidates share their lowercased
text `"summary"` but differ in level (`H1` vs `H2`) and page (1 vs 2);
`post_process_outline` keeps only the first — deduplication is keyed on
the lowercased text alone, not on the `(level, text, page)` triple, so
same-text candidates with different level or page are not both
retained. -/
theorem C3_counterexample :
    post_process_outline
      [{ level := "H1", text := "Summary", page := 1, confidence := 1, y_position := some 0 },
       { level := "H2", text := "Summary", page := 2, confidence := 1, y_position := some 0 }] =
      [{ level := "H1", text := "Summary", page := 1, confidence := 1, y_position := some 0 }] :=
  of_decide_eq_true (by with_unfolding_all rfl)

/-- Amended C3: outline deduplication is keyed on the lowercased trimmed
text alone, first occurrence winning, and entries whose key has at most
two characters are dropped; hence no two final entries share their
lowercased text (so in particular no `(level, lowercased text, page)`
triple repeats), but same-text candidates differing in level or page are
not both retained. -/
theorem C3_amended (outline : List OutlineItem) :
    (post_process_outline outline).Pairwise
      (fun a b => title_key a.text ≠ title_key b.text) ∧
    ∀ it ∈ post_process_outline outline, (title_key it.text).data.length > 2 := by
  constructor
  · have hperm := List.perm_insertionSort sortKeyLe (post_process_loop outline [])
    have hp := (hperm.pairwise_iff (fun hab he => hab he.symm)).2
      (post_process_loop_pairwise outline [])
    exact hp.sublist (List.take_sublist _ _)
  · intro it hit
    have h1 : it ∈ List.insertionSort sortKeyLe (post_process_loop outline []) :=
      (List.take_sublist _ _).subset hit
    have h2 : it ∈ post_process_loop outline [] :=
      (List.perm_insertionSort sortKeyLe _).mem_iff.1 h1
    exact post_process_loop_long _ _ _ h2

/-- Witness for C3 on a singleton outline whose sole entry survives
post-processing. -/
theorem C3_witness :
    (title_key "Summary").data.length > 2 :=
  (C3_amended
    [{ level := "H1", text := "Summary", page := 1, confidence := 1, y_position := some 0 }]).2
    { level := "H1", text := "Summary", page := 1, confidence := 1, y_position := some 0 }
    (of_decide_eq_true (by with_unfolding_all rfl))

lemma post_process_cap (l : List OutlineItem) : (post_process_outline l).length ≤ 50 := by
  rw [post_process_outline]
  exact List.length_take_le 50 _

lemma post_process_sorted (l : List OutlineItem) :
    (post_process_outline l).Pairwise sortKeyLe := by
  rw [post_process_outline]
  exact (List.sorted_insertionSort sortKeyLe _).sublist (List.take_sublist _ _)

/-- Amended C8: the 50-entry cap and the `(page, vertical position)`
ordering hold for every outline produced by `post_process_outline`, and
hence for the layout-inference path of `process_pdf`; the native bookmark
fast path instead returns the converted table of contents verbatim,
without cap or re-sorting. -/
theorem C8_amended (stem : String) (toc : List (ℤ × String × ℤ))
    (elements : List Element) (std : ℚ) (items : List OutlineItem) :
    ((post_process_outline items).length ≤ 50 ∧
      (post_process_outline items).Pairwise sortKeyLe) ∧
    (toc = [] →
      (process_pdf stem toc elements std).outline.length ≤ 50 ∧
      (process_pdf stem toc elements std).outline.Pairwise (fun a b => a.page ≤ b.page)) ∧
    (extract_existing_outline toc ≠ [] →
      (process_pdf stem toc elements std).outline = extract_existing_outline toc) := by
  refine ⟨⟨post_process_cap items, post_process_sorted items⟩, ?_, ?_⟩
  · intro htoc
    subst htoc
    simp only [process_pdf]
    rw [if_neg (by simp [extract_existing_outline])]
    split_ifs with he
    · simp
    · constructor
      · simpa using post_process_cap _
      · have hp := post_process_sorted (elements.filterMap (fun element =>
          if (is_likely_heading element.text element
                (calculate_font_statistics elements std)).1 then
            some { level := determine_heading_level element
                     (calculate_font_statistics elements std),
                   text := element.text,
                   page := element.page,
                   confidence := (is_likely_heading element.text element
                     (calculate_font_statistics elements std)).2,
                   y_position := some element.y_position }
          else none))
        simp only []
        refine List.pairwise_map.2 ?_
        refine hp.imp ?_
        intro a b hab
        rcases hab with h | ⟨h, _⟩
        · exact le_of_lt h
        · exact le_of_eq h
  · intro hex
    simp only [process_pdf]
    rw [if_pos hex]

/-- Bookmark table of contents with 51 entries in descending page
order. -/
def C8_toc : List (ℤ × String × ℤ) :=
  (List.range 51).map (fun i => ((1 : ℤ), "Heading", (51 - i : ℤ)))

/-- Counterexample to C8: a native bookmark table of contents with 51
entries in descending page order is returned verbatim by `process_pdf` —
the fast path applies neither the 50-entry cap nor the
`(page, position)` sort. -/
theorem C8_counterexample :
    (process_pdf "doc" C8_toc [] 0).outline.length = 51 ∧
    ¬((process_pdf "doc" C8_toc [] 0).outline.length ≤ 50) ∧
    ((process_pdf "doc" C8_toc [] 0).outline.map (fun en => en.page)).take 2 = [51, 50] :=
  of_decide_eq_true (by with_unfolding_all rfl)

/-- Heading element for the C2 scenario: all-caps, bold, left-aligned,
two words, font size 13 against a body size of 10 with standard deviation
1, so it is accepted with confidence `1.65` and level `H1`. -/
def C2_heading_elem : Element :=
  { text := "EXPERIMENT RESULTS", font_size := 13, is_bold := true,
    x_position := 50, y_position := 40, page := 1 }

/-- Body element for the C2 scenario: an ordinary ten-word sentence at
the body font size, rejected with confidence `0.35`. -/
def C2_body_elem : Element :=
  { text := "the quick brown fox jumps over the lazy dog today", font_size := 10,
    is_bold := false, x_position := 200, y_position := 80, page := 1 }

/-- Document for the C2 scenario: one accepted `H1` heading and eight
identical body lines (sample standard deviation exactly 1). -/
def C2_elements : List Element := C2_heading_elem :: List.replicate 8 C2_body_elem

/-- Counterexample to C2: a layout-inference document with an accepted H1
on the first heading page.  The claim says that H1 becomes the document
title and is excluded from the outline entries; `process_pdf` instead
always titles the document with the filename stem and keeps the H1 in the
entries.  The `stdevSpec` conjunct certifies that `1` is the true sample
standard deviation of the font sizes, so the statistics match
`statistics.stdev`. -/
theorem C2_counterexample :
    process_pdf "report7" [] C2_elements 1 =
      { title := "report7",
        outline := [{ level := "H1", text := "EXPERIMENT RESULTS", page := 1 }] } ∧
    stdevSpec (C2_elements.map (fun e => e.font_size)) 1 ∧
    "report7" ≠ "EXPERIMENT RESULTS" :=
  of_decide_eq_true (by with_unfolding_all rfl)

/-- Amended C2: `process_pdf` never promotes a heading to the document
title — the title is the filename stem on every path (bookmark fast path,
zero-text fallback and layout inference alike), accepted H1 headings stay
in the outline entries, and a document with no extractable text yields an
empty outline with the filename-stem title. -/
theorem C2_amended (stem : String) (toc : List (ℤ × String × ℤ))
    (elements : List Element) (std : ℚ) :
    (process_pdf stem toc elements std).title = stem ∧
    (toc = [] → elements = [] → (process_pdf stem toc elements std).outline = []) := by
  constructor
  · simp only [process_pdf]
    split_ifs <;> rfl
  · intro h1 h2
    subst h1; subst h2
    simp [process_pdf, extract_existing_outline]

/-- Witness for C2 on the empty document. -/
theorem C2_witness :
    (process_pdf "d" [] [] 0).title = "d" ∧ (process_pdf "d" [] [] 0).outline = [] :=
  ⟨(C2_amended "d" [] [] 0).1, (C2_amended "d" [] [] 0).2 rfl rfl⟩

/-- Witness for C8: the layout path of a one-element document satisfies
the cap and the page ordering, and a one-entry bookmark list is returned
verbatim. -/
theorem C8_witness :
    ((process_pdf "d" [] [C2_body_elem] 0).outline.length ≤ 50 ∧
      (process_pdf "d" [] [C2_body_elem] 0).outline.Pairwise (fun a b => a.page ≤ b.page)) ∧
    (process_pdf "d" [((1 : ℤ), "T", (2 : ℤ))] [] 0).outline =
      extract_existing_outline [((1 : ℤ), "T", (2 : ℤ))] :=
  ⟨(C8_amended "d" [] [C2_body_elem] 0 []).2.1 rfl,
   (C8_amended "d" [((1 : ℤ), "T", (2 : ℤ))] [] 0 []).2.2
     (of_decide_eq_true (by with_unfolding_all rfl))⟩

end ProcessPdfs
